import Mathlib

/-
Verification of the load-test harness (loadtest.go): the backoff requester,
the per-worker request loop, the statistics aggregation and the percentile
computation, embedded shallowly.  Durations are nanoseconds (Go
time.Duration values), counters are integers (Go int / int64), and the
network is an oracle assigning an outcome to every attempt index.
-/

namespace Loadtest

/-- One HTTP attempt as observed by the load tester: whether the transport
returned an error (err not nil in Go), the status code of the response when
one came back, the observed latency in nanoseconds, and the size in bytes of
the response body. -/
structure Attempt where
  transportError : Bool
  status : Nat
  latency : Nat
  respBytes : Nat
  deriving DecidableEq

/-- The error outcomes a single logical request can end in. -/
inductive ReqError where
  | backoffExhausted
  | serializationFailed
  deriving DecidableEq

/-- The tuple returned by exponentialBackoffGET / exponentialBackoffPOST,
together with the attempt count and the sequence of backoff sleeps, which the
Go code performs as side effects. resp holds the status of the returned
response (none when the error return is non-nil). -/
structure BackoffResult where
  resp : Option Nat
  latency : Nat
  bytesSent : Nat
  bytesRecv : Nat
  error : Option ReqError
  attempts : Nat
  sleeps : List Nat
  deriving DecidableEq

/-- backoff starts at 20 milliseconds (in nanoseconds). -/
def initialBackoff : Nat := 20000000

/-- backoff is capped at 5 seconds (in nanoseconds). -/
def maxBackoff : Nat := 5000000000

/-- backoff *= 2; if backoff > 5 seconds, backoff = 5 seconds. -/
def nextBackoff (b : Nat) : Nat :=
  if b * 2 > maxBackoff then maxBackoff else b * 2

/-- The retry loop shared by exponentialBackoffGET and exponentialBackoffPOST:
for i := 0; i < 10; i++, attempt the request; a nil transport error returns
the response at once with the latency of that attempt; otherwise sleep the
current backoff, double it (capped) and continue.  When the fuel runs out the
function returns nil, 0, 0, 0 and the backoff-exceeded error. -/
def backoffRun (att : Nat → Attempt) (sent : Nat) : Nat → Nat → Nat → BackoffResult
  | _, _, 0 =>
    { resp := none, latency := 0, bytesSent := 0, bytesRecv := 0,
      error := some ReqError.backoffExhausted, attempts := 0, sleeps := [] }
  | i, b, fuel + 1 =>
    let a := att i
    if a.transportError then
      let rest := backoffRun att sent (i + 1) (nextBackoff b) fuel
      { rest with attempts := rest.attempts + 1, sleeps := b :: rest.sleeps }
    else
      { resp := some a.status, latency := a.latency, bytesSent := sent,
        bytesRecv := a.respBytes, error := none, attempts := 1, sleeps := [] }

/-- exponentialBackoffGET: no request body, so bytes sent is 0. -/
def exponentialBackoffGET (att : Nat → Attempt) : BackoffResult :=
  backoffRun att 0 0 initialBackoff 10

/-- exponentialBackoffPOST: the Comment payload is serialized by json.Marshal;
a serialization failure returns immediately with the marshal error, otherwise
bytes sent on success is the length of the encoding. -/
def exponentialBackoffPOST (att : Nat → Attempt) (marshal : Except Unit Nat) :
    BackoffResult :=
  match marshal with
  | Except.error _ =>
    { resp := none, latency := 0, bytesSent := 0, bytesRecv := 0,
      error := some ReqError.serializationFailed, attempts := 0, sleeps := [] }
  | Except.ok size => backoffRun att size 0 initialBackoff 10

/-- One iteration of the worker loop, as decided by the environment: the
random GET/POST choice (rand.Intn(2) == 0 picks GET), the oracle for the
HTTP attempts of this iteration, and the result of serializing the Comment
payload (its length in bytes, or a marshal failure). -/
structure Iteration where
  isGet : Bool
  att : Nat → Attempt
  marshal : Except Unit Nat

/-- The Stats record of loadtest.go. -/
structure Stats where
  SuccessfulGET : Int
  SuccessfulPOST : Int
  TotalBytesSent : Int
  TotalBytesRecv : Int
  Errors : Int
  Latencies : List Nat
  deriving DecidableEq

/-- var s Stats - the zero value. -/
def emptyStats : Stats :=
  { SuccessfulGET := 0, SuccessfulPOST := 0, TotalBytesSent := 0,
    TotalBytesRecv := 0, Errors := 0, Latencies := [] }

/-- The backoff call an iteration performs, GET or POST as chosen. -/
def iterationOutcome (it : Iteration) : BackoffResult :=
  if it.isGet then exponentialBackoffGET it.att
  else exponentialBackoffPOST it.att it.marshal

/-- One iteration of makeRequests: on a non-nil error increment Errors and
continue; on success accumulate bytes sent and received, append the latency
and increment the matching success counter. -/
def runIteration (s : Stats) (it : Iteration) : Stats :=
  match (iterationOutcome it).error with
  | some _ => { s with Errors := s.Errors + 1 }
  | none =>
    if it.isGet then
      { s with
        TotalBytesSent := s.TotalBytesSent + ((iterationOutcome it).bytesSent : Int),
        TotalBytesRecv := s.TotalBytesRecv + ((iterationOutcome it).bytesRecv : Int),
        Latencies := s.Latencies ++ [(iterationOutcome it).latency],
        SuccessfulGET := s.SuccessfulGET + 1 }
    else
      { s with
        TotalBytesSent := s.TotalBytesSent + ((iterationOutcome it).bytesSent : Int),
        TotalBytesRecv := s.TotalBytesRecv + ((iterationOutcome it).bytesRecv : Int),
        Latencies := s.Latencies ++ [(iterationOutcome it).latency],
        SuccessfulPOST := s.SuccessfulPOST + 1 }

/-- makeRequests: starting from the zero Stats, run the given iterations in
order and return the final Stats record (sent once on the channel). -/
def makeRequests (its : List Iteration) : Stats :=
  its.foldl runIteration emptyStats

/-- One step of the aggregation loop in main: add every counter and byte
total of the received Stats and append its latencies. -/
def mergeStats (acc s : Stats) : Stats :=
  { SuccessfulGET := acc.SuccessfulGET + s.SuccessfulGET,
    SuccessfulPOST := acc.SuccessfulPOST + s.SuccessfulPOST,
    TotalBytesSent := acc.TotalBytesSent + s.TotalBytesSent,
    TotalBytesRecv := acc.TotalBytesRecv + s.TotalBytesRecv,
    Errors := acc.Errors + s.Errors,
    Latencies := acc.Latencies ++ s.Latencies }

/-- The aggregation loop of main over the per-worker Stats in arrival
order. -/
def aggregate (arrivals : List Stats) : Stats :=
  arrivals.foldl mergeStats emptyStats

/-- sortDurationSlice: sort the slice ascending. -/
def sortDurationSlice (l : List Nat) : List Nat :=
  List.insertionSort (fun a b => a ≤ b) l

/-- idx := (len(latenciesSorted) * p) / 100; latenciesSorted[idx].  The
lookup is partial: none models the index-out-of-range panic of the Go
indexing expression. -/
def percentileLatency (lats : List Nat) (p : Nat) : Option Nat :=
  (sortDurationSlice lats).get? ((sortDurationSlice lats).length * p / 100)

/-- percentiles := []int{50, 90, 95, 99}. -/
def percentiles : List Nat := [50, 90, 95, 99]

/-- The percentile loop of main: look up every percentile of the combined
latency slice; none models the panic when any lookup is out of range. -/
def computePercentileTable (lats : List Nat) : Option (List (Nat × Nat)) :=
  percentiles.foldr
    (fun p acc =>
      match percentileLatency lats p, acc with
      | some v, some rest => some ((p, v) :: rest)
      | _, _ => none)
    (some [])

/-- requestsPerThread := numRequests / threads. -/
def perWorkerIterations (numRequests threads : Nat) : Nat :=
  numRequests / threads

/-- The iteration counts the driver hands to the spawned workers: threads
goroutines, each told to perform requestsPerThread iterations. -/
def spawnCounts (numRequests threads : Nat) : List Nat :=
  List.replicate threads (perWorkerIterations numRequests threads)

/-- The number of request iterations actually performed in a run. -/
def totalIterations (numRequests threads : Nat) : Nat :=
  threads * perWorkerIterations numRequests threads

/-- requestsPerSecond := float64(numRequests) / elapsedTime.Seconds(),
modelled over the rationals. -/
def requestsPerSecond (numRequests : Nat) (elapsedSeconds : ℚ) : ℚ :=
  (numRequests : ℚ) / elapsedSeconds

/-- The terminal artifact printed by main. -/
structure RunSummary where
  TotalBytesSent : Int
  TotalBytesRecv : Int
  SuccessfulGET : Int
  SuccessfulPOST : Int
  Errors : Int
  percentileTable : List (Nat × Nat)
  requestsPerSec : ℚ
  deriving DecidableEq

/-- The aggregation and reporting phase of main: merge the arrived Stats,
compute the percentile table of the combined latencies and build the final
summary.  none models the run ending in the index-out-of-range panic of the
percentile loop, in which case no summary is produced. -/
def runMain (arrivals : List Stats) (numRequests : Nat) (elapsedSeconds : ℚ) :
    Option RunSummary :=
  match computePercentileTable (aggregate arrivals).Latencies with
  | none => none
  | some table =>
    some { TotalBytesSent := (aggregate arrivals).TotalBytesSent,
           TotalBytesRecv := (aggregate arrivals).TotalBytesRecv,
           SuccessfulGET := (aggregate arrivals).SuccessfulGET,
           SuccessfulPOST := (aggregate arrivals).SuccessfulPOST,
           Errors := (aggregate arrivals).Errors,
           percentileTable := table,
           requestsPerSec := requestsPerSecond numRequests elapsedSeconds }

/-- The sequence of backoff sleeps performed by a run of the retry loop in
which every attempt fails: the current backoff, then the sleeps of the rest
of the loop with the doubled (capped) backoff. -/
def sleepSeq : Nat → Nat → List Nat
  | _, 0 => []
  | b, fuel + 1 => b :: sleepSeq (nextBackoff b) fuel

/-- A per-worker Stats invariant: the latency slice has one entry per
successful request and every counter and byte total is non-negative. -/
def statsInv (s : Stats) : Prop :=
  (s.Latencies.length : Int) = s.SuccessfulGET + s.SuccessfulPOST ∧
  0 ≤ s.SuccessfulGET ∧ 0 ≤ s.SuccessfulPOST ∧
  0 ≤ s.TotalBytesSent ∧ 0 ≤ s.TotalBytesRecv ∧ 0 ≤ s.Errors

/-- An attempt that succeeds with status 200. -/
def okAttempt : Attempt :=
  { transportError := false, status := 200, latency := 5, respBytes := 3 }

/-- An attempt on which the transport fails. -/
def failAttempt : Attempt :=
  { transportError := true, status := 0, latency := 1, respBytes := 0 }

/-- An attempt whose response comes back with status 500 and a nil transport
error. -/
def badStatusAttempt : Attempt :=
  { transportError := false, status := 500, latency := 7, respBytes := 3 }

/-- A GET iteration that succeeds at once. -/
def okIt : Iteration :=
  { isGet := true, att := fun _ => okAttempt, marshal := Except.ok 0 }

/-- A GET iteration on which the transport fails every attempt. -/
def failIt : Iteration :=
  { isGet := true, att := fun _ => failAttempt, marshal := Except.ok 0 }

/-- A POST iteration on which serializing the payload fails. -/
def serIt : Iteration :=
  { isGet := false, att := fun _ => okAttempt, marshal := Except.error () }

/-- A GET iteration whose responses all carry status 500. -/
def badStatusIt : Iteration :=
  { isGet := true, att := fun _ => badStatusAttempt, marshal := Except.ok 0 }

/-- An oracle that fails the first two attempts and succeeds on the third
with latency 42. -/
def att3 : Nat → Attempt := fun i =>
  if i < 2 then failAttempt
  else { transportError := false, status := 200, latency := 42, respBytes := 7 }

lemma backoffRun_succ_of_fail (att : Nat → Attempt) (sent i b fuel : Nat)
    (h : (att i).transportError = true) :
    backoffRun att sent i b (fuel + 1) =
      { backoffRun att sent (i + 1) (nextBackoff b) fuel with
        attempts := (backoffRun att sent (i + 1) (nextBackoff b) fuel).attempts + 1,
        sleeps := b :: (backoffRun att sent (i + 1) (nextBackoff b) fuel).sleeps } := by
  simp [backoffRun, h]

lemma backoffRun_succ_of_ok (att : Nat → Attempt) (sent i b fuel : Nat)
    (h : (att i).transportError = false) :
    backoffRun att sent i b (fuel + 1) =
      { resp := some (att i).status, latency := (att i).latency, bytesSent := sent,
        bytesRecv := (att i).respBytes, error := none, attempts := 1, sleeps := [] } := by
  simp [backoffRun, h]

/-- If the attempts at indices i, ..., i+m-1 fail on the transport and the
attempt at index i+m succeeds, the retry loop performs m+1 attempts, sleeps
the m backoff values starting at b, and returns the response, latency and
byte counts of the final attempt. -/
lemma backoffRun_succeeds (att : Nat → Attempt) (sent : Nat) :
    ∀ (m i b fuel : Nat), m < fuel →
      (∀ j, j < m → (att (i + j)).transportError = true) →
      (att (i + m)).transportError = false →
      backoffRun att sent i b fuel =
        { resp := some (att (i + m)).status, latency := (att (i + m)).latency,
          bytesSent := sent, bytesRecv := (att (i + m)).respBytes,
          error := none, attempts := m + 1, sleeps := sleepSeq b m } := by
  intro m
  induction m with
  | zero =>
    intro i b fuel hlt hfail hok
    cases fuel with
    | zero => exact absurd hlt (Nat.not_lt_zero _)
    | succ fuel =>
      rw [backoffRun_succ_of_ok att sent i b fuel (by simpa using hok)]
      simp [sleepSeq]
  | succ m ih =>
    intro i b fuel hlt hfail hok
    cases fuel with
    | zero => exact absurd hlt (Nat.not_lt_zero _)
    | succ fuel =>
      have hidx : i + (m + 1) = i + 1 + m := by omega
      rw [hidx] at hok ⊢
      have h0 : (att i).transportError = true := by
        simpa using hfail 0 (Nat.succ_pos m)
      have hfail' : ∀ j, j < m → (att (i + 1 + j)).transportError = true := by
        intro j hj
        have h := hfail (j + 1) (by omega)
        have hj' : i + (j + 1) = i + 1 + j := by omega
        rwa [hj'] at h
      rw [backoffRun_succ_of_fail att sent i b fuel h0,
        ih (i + 1) (nextBackoff b) fuel (by omega) hfail' hok]
      simp [sleepSeq]

/-- If every attempt the loop can make fails on the transport, the loop
performs all its attempts, sleeps every backoff value, and returns the
backoff-exceeded error with no response and zeroed latency and bytes. -/
lemma backoffRun_exhausts (att : Nat → Attempt) (sent : Nat) :
    ∀ (fuel i b : Nat),
      (∀ j, j < fuel → (att (i + j)).transportError = true) →
      backoffRun att sent i b fuel =
        { resp := none, latency := 0, bytesSent := 0, bytesRecv := 0,
          error := some ReqError.backoffExhausted, attempts := fuel,
          sleeps := sleepSeq b fuel } := by
  intro fuel
  induction fuel with
  | zero => intro i b _; simp [backoffRun, sleepSeq]
  | succ fuel ih =>
    intro i b hfail
    have h0 : (att i).transportError = true := by
      simpa using hfail 0 (Nat.succ_pos fuel)
    have hfail' : ∀ j, j < fuel → (att (i + 1 + j)).transportError = true := by
      intro j hj
      have h := hfail (j + 1) (by omega)
      have hj' : i + (j + 1) = i + 1 + j := by omega
      rwa [hj'] at h
    rw [backoffRun_succ_of_fail att sent i b fuel h0, ih (i + 1) (nextBackoff b) hfail']
    simp [sleepSeq]

/-- C4: for a target that fails on every attempt, both backoff requesters
perform exactly 10 attempts, the delays slept start at 20 ms and double
after each failed attempt capped at 5000 ms, no delay exceeds 5000 ms, and
the call returns no response together with the backoff-exhausted error. -/
theorem claim4_backoff_exhaustion (att : Nat → Attempt) (size : Nat)
    (hfail : ∀ i, (att i).transportError = true) :
    exponentialBackoffGET att =
      { resp := none, latency := 0, bytesSent := 0, bytesRecv := 0,
        error := some ReqError.backoffExhausted, attempts := 10,
        sleeps := [20000000, 40000000, 80000000, 160000000, 320000000,
                   640000000, 1280000000, 2560000000, 5000000000, 5000000000] } ∧
    exponentialBackoffPOST att (Except.ok size) =
      { resp := none, latency := 0, bytesSent := 0, bytesRecv := 0,
        error := some ReqError.backoffExhausted, attempts := 10,
        sleeps := [20000000, 40000000, 80000000, 160000000, 320000000,
                   640000000, 1280000000, 2560000000, 5000000000, 5000000000] } ∧
    (∀ d ∈ (exponentialBackoffGET att).sleeps, d ≤ 5000000000) := by
  have hseq : sleepSeq initialBackoff 10 =
      [20000000, 40000000, 80000000, 160000000, 320000000,
       640000000, 1280000000, 2560000000, 5000000000, 5000000000] := by decide
  have hG : exponentialBackoffGET att =
      { resp := none, latency := 0, bytesSent := 0, bytesRecv := 0,
        error := some ReqError.backoffExhausted, attempts := 10,
        sleeps := sleepSeq initialBackoff 10 } :=
    backoffRun_exhausts att 0 10 0 initialBackoff (fun j _ => hfail (0 + j))
  have hP : exponentialBackoffPOST att (Except.ok size) =
      { resp := none, latency := 0, bytesSent := 0, bytesRecv := 0,
        error := some ReqError.backoffExhausted, attempts := 10,
        sleeps := sleepSeq initialBackoff 10 } :=
    backoffRun_exhausts att size 10 0 initialBackoff (fun j _ => hfail (0 + j))
  refine ⟨?_, ?_, ?_⟩
  · rw [hG, hseq]
  · rw [hP, hseq]
  · rw [hG, hseq]
    decide

/-- Witness for C4 at a concrete oracle whose transport fails on every
attempt. -/
theorem claim4_witness :
    (exponentialBackoffGET (fun _ => failAttempt)).attempts = 10 ∧
    (exponentialBackoffGET (fun _ => failAttempt)).error = some ReqError.backoffExhausted ∧
    (exponentialBackoffGET (fun _ => failAttempt)).resp = none ∧
    (exponentialBackoffGET (fun _ => failAttempt)).sleeps =
      [20000000, 40000000, 80000000, 160000000, 320000000,
       640000000, 1280000000, 2560000000, 5000000000, 5000000000] := by
  have h := claim4_backoff_exhaustion (fun _ => failAttempt) 0 (fun _ => rfl)
  rw [h.1]
  exact ⟨rfl, rfl, rfl, rfl⟩

/-- C6: for a target that succeeds on attempt k with k at most 10, both
backoff requesters perform exactly k attempts and the latency returned is
that of the final attempt k alone. -/
theorem claim6_final_attempt_latency (att : Nat → Attempt) (size k : Nat)
    (hk1 : 1 ≤ k) (hk10 : k ≤ 10)
    (hfail : ∀ i, i < k - 1 → (att i).transportError = true)
    (hok : (att (k - 1)).transportError = false) :
    (exponentialBackoffGET att).attempts = k ∧
    (exponentialBackoffGET att).latency = (att (k - 1)).latency ∧
    (exponentialBackoffGET att).error = none ∧
    (exponentialBackoffPOST att (Except.ok size)).attempts = k ∧
    (exponentialBackoffPOST att (Except.ok size)).latency = (att (k - 1)).latency ∧
    (exponentialBackoffPOST att (Except.ok size)).error = none := by
  have hfail0 : ∀ j, j < k - 1 → (att (0 + j)).transportError = true := by
    intro j hj; simpa using hfail j hj
  have hok0 : (att (0 + (k - 1))).transportError = false := by simpa using hok
  have hG : exponentialBackoffGET att =
      { resp := some (att (0 + (k - 1))).status, latency := (att (0 + (k - 1))).latency,
        bytesSent := 0, bytesRecv := (att (0 + (k - 1))).respBytes,
        error := none, attempts := (k - 1) + 1, sleeps := sleepSeq initialBackoff (k - 1) } :=
    backoffRun_succeeds att 0 (k - 1) 0 initialBackoff 10 (by omega) hfail0 hok0
  have hP : exponentialBackoffPOST att (Except.ok size) =
      { resp := some (att (0 + (k - 1))).status, latency := (att (0 + (k - 1))).latency,
        bytesSent := size, bytesRecv := (att (0 + (k - 1))).respBytes,
        error := none, attempts := (k - 1) + 1, sleeps := sleepSeq initialBackoff (k - 1) } :=
    backoffRun_succeeds att size (k - 1) 0 initialBackoff 10 (by omega) hfail0 hok0
  refine ⟨?_, ?_, ?_, ?_, ?_, ?_⟩
  · rw [hG]; show k - 1 + 1 = k; omega
  · rw [hG]; show (att (0 + (k - 1))).latency = (att (k - 1)).latency
    rw [Nat.zero_add]
  · rw [hG]
  · rw [hP]; show k - 1 + 1 = k; omega
  · rw [hP]; show (att (0 + (k - 1))).latency = (att (k - 1)).latency
    rw [Nat.zero_add]
  · rw [hP]

/-- Witness for C6 at a concrete oracle that fails attempts 1 and 2 and
succeeds on attempt 3 with latency 42. -/
theorem claim6_witness :
    (exponentialBackoffGET att3).attempts = 3 ∧
    (exponentialBackoffGET att3).latency = (att3 2).latency ∧
    (exponentialBackoffGET att3).error = none ∧
    (exponentialBackoffPOST att3 (Except.ok 0)).attempts = 3 ∧
    (exponentialBackoffPOST att3 (Except.ok 0)).latency = (att3 2).latency ∧
    (exponentialBackoffPOST att3 (Except.ok 0)).error = none :=
  claim6_final_attempt_latency att3 0 3 (by decide) (by decide) (by decide) (by decide)

/-- C2 counterexample: against the claim, a response carrying the
non-success status 500 with a nil transport error is returned by the first
attempt with no retry, and the worker counts the request as a successful GET
and accumulates its latency, leaving the error counter at zero. -/
theorem claim2_counterexample :
    (exponentialBackoffGET (fun _ => badStatusAttempt)).error = none ∧
    (exponentialBackoffGET (fun _ => badStatusAttempt)).attempts = 1 ∧
    (exponentialBackoffGET (fun _ => badStatusAttempt)).resp = some 500 ∧
    (makeRequests [badStatusIt]).SuccessfulGET = 1 ∧
    (makeRequests [badStatusIt]).Errors = 0 ∧
    (makeRequests [badStatusIt]).Latencies = [7] := by
  decide

/-- C2 amended: a response with a nil transport error is treated as success
on the first attempt regardless of its status code; the requester returns at
once with that attempt's status and latency, and the worker counts the
iteration as a successful request and appends its latency, leaving the error
counter unchanged.  Only transport-level errors trigger retry; status codes
are never inspected. -/
theorem claim2_amended_status_ignored (att : Nat → Attempt) (size : Nat)
    (g : Bool) (s : Stats) (hok : (att 0).transportError = false) :
    (exponentialBackoffGET att).error = none ∧
    (exponentialBackoffGET att).attempts = 1 ∧
    (exponentialBackoffGET att).resp = some (att 0).status ∧
    (exponentialBackoffGET att).latency = (att 0).latency ∧
    (exponentialBackoffPOST att (Except.ok size)).error = none ∧
    (exponentialBackoffPOST att (Except.ok size)).attempts = 1 ∧
    (runIteration s { isGet := g, att := att, marshal := Except.ok size }).SuccessfulGET +
      (runIteration s { isGet := g, att := att, marshal := Except.ok size }).SuccessfulPOST =
      s.SuccessfulGET + s.SuccessfulPOST + 1 ∧
    (runIteration s { isGet := g, att := att, marshal := Except.ok size }).Latencies =
      s.Latencies ++ [(att 0).latency] ∧
    (runIteration s { isGet := g, att := att, marshal := Except.ok size }).Errors =
      s.Errors := by
  have hok0 : (att (0 + 0)).transportError = false := by simpa using hok
  have hG : exponentialBackoffGET att =
      { resp := some (att (0 + 0)).status, latency := (att (0 + 0)).latency,
        bytesSent := 0, bytesRecv := (att (0 + 0)).respBytes,
        error := none, attempts := 0 + 1, sleeps := sleepSeq initialBackoff 0 } :=
    backoffRun_succeeds att 0 0 0 initialBackoff 10 (by omega) (by omega) hok0
  have hP : exponentialBackoffPOST att (Except.ok size) =
      { resp := some (att (0 + 0)).status, latency := (att (0 + 0)).latency,
        bytesSent := size, bytesRecv := (att (0 + 0)).respBytes,
        error := none, attempts := 0 + 1, sleeps := sleepSeq initialBackoff 0 } :=
    backoffRun_succeeds att size 0 0 initialBackoff 10 (by omega) (by omega) hok0
  have hout : iterationOutcome { isGet := g, att := att, marshal := Except.ok size } =
      { resp := some (att 0).status, latency := (att 0).latency,
        bytesSent := if g then 0 else size, bytesRecv := (att 0).respBytes,
        error := none, attempts := 1, sleeps := [] } := by
    cases g <;> simp [iterationOutcome, hG, hP, sleepSeq]
  refine ⟨?_, ?_, ?_, ?_, ?_, ?_, ?_, ?_, ?_⟩
  · rw [hG]
  · rw [hG]
  · rw [hG]
  · rw [hG]
  · rw [hP]
  · rw [hP]
  · cases g <;> simp [runIteration, hout] <;> ring
  · cases g <;> simp [runIteration, hout]
  · cases g <;> simp [runIteration, hout]

/-- Witness for the amended C2 at the status-500 oracle starting from the
zero Stats record. -/
theorem claim2_amended_witness :
    (exponentialBackoffGET (fun _ => badStatusAttempt)).error = none ∧
    (exponentialBackoffGET (fun _ => badStatusAttempt)).attempts = 1 ∧
    (exponentialBackoffGET (fun _ => badStatusAttempt)).resp =
      some ((fun _ => badStatusAttempt) 0).status ∧
    (exponentialBackoffGET (fun _ => badStatusAttempt)).latency =
      ((fun _ => badStatusAttempt) 0).latency ∧
    (exponentialBackoffPOST (fun _ => badStatusAttempt) (Except.ok 0)).error = none ∧
    (exponentialBackoffPOST (fun _ => badStatusAttempt) (Except.ok 0)).attempts = 1 ∧
    (runIteration emptyStats
        { isGet := true, att := fun _ => badStatusAttempt,
          marshal := Except.ok 0 }).SuccessfulGET +
      (runIteration emptyStats
        { isGet := true, att := fun _ => badStatusAttempt,
          marshal := Except.ok 0 }).SuccessfulPOST =
      emptyStats.SuccessfulGET + emptyStats.SuccessfulPOST + 1 ∧
    (runIteration emptyStats
        { isGet := true, att := fun _ => badStatusAttempt,
          marshal := Except.ok 0 }).Latencies =
      emptyStats.Latencies ++ [((fun _ => badStatusAttempt) 0).latency] ∧
    (runIteration emptyStats
        { isGet := true, att := fun _ => badStatusAttempt,
          marshal := Except.ok 0 }).Errors = emptyStats.Errors :=
  claim2_amended_status_ignored (fun _ => badStatusAttempt) 0 true emptyStats rfl

/-- Running the worker loop over iterations that all fail only increments
the error counter, by one per iteration. -/
lemma foldl_runIteration_all_fail :
    ∀ (its : List Iteration) (s : Stats),
      (∀ it ∈ its, ((iterationOutcome it).error).isSome = true) →
      List.foldl runIteration s its = { s with Errors := s.Errors + its.length } := by
  intro its
  induction its with
  | nil => intro s _; simp
  | cons a t ih =>
    intro s hfail
    have ha := hfail a (List.mem_cons_self a t)
    rw [List.foldl_cons]
    have hstep : runIteration s a = { s with Errors := s.Errors + 1 } := by
      rcases Option.isSome_iff_exists.mp ha with ⟨e, he⟩
      simp [runIteration, he]
    rw [hstep, ih { s with Errors := s.Errors + 1 }
      (fun it hit => hfail it (List.mem_cons_of_mem a hit))]
    simp [List.length_cons]
    ring

/-- C7: a worker never aborts early; over any sequence of iterations in
which every request fails (backoff exhausted or serialization failure) it
produces exactly the Stats record whose error count is the iteration count,
with zero successes, zero bytes, and an empty latency slice. -/
theorem claim7_worker_never_aborts (its : List Iteration)
    (hfail : ∀ it ∈ its, ((iterationOutcome it).error).isSome = true) :
    makeRequests its =
      { SuccessfulGET := 0, SuccessfulPOST := 0, TotalBytesSent := 0,
        TotalBytesRecv := 0, Errors := (its.length : Int), Latencies := [] } := by
  unfold makeRequests
  rw [foldl_runIteration_all_fail its emptyStats hfail]
  simp [emptyStats]

/-- Witness for C7: two iterations, one exhausting the backoff and one
failing serialization, still yield a single Stats record with two errors. -/
theorem claim7_witness :
    makeRequests [failIt, serIt] =
      { SuccessfulGET := 0, SuccessfulPOST := 0, TotalBytesSent := 0,
        TotalBytesRecv := 0, Errors := 2, Latencies := [] } := by
  have h := claim7_worker_never_aborts [failIt, serIt] (by decide)
  simpa using h

/-- The aggregation loop started from an arbitrary accumulator adds all the
per-worker counters and byte totals and appends all the latency slices in
order. -/
lemma foldl_mergeStats (l : List Stats) :
    ∀ s : Stats,
      List.foldl mergeStats s l =
        { SuccessfulGET := s.SuccessfulGET + (l.map (fun w => w.SuccessfulGET)).sum,
          SuccessfulPOST := s.SuccessfulPOST + (l.map (fun w => w.SuccessfulPOST)).sum,
          TotalBytesSent := s.TotalBytesSent + (l.map (fun w => w.TotalBytesSent)).sum,
          TotalBytesRecv := s.TotalBytesRecv + (l.map (fun w => w.TotalBytesRecv)).sum,
          Errors := s.Errors + (l.map (fun w => w.Errors)).sum,
          Latencies := s.Latencies ++ (l.map (fun w => w.Latencies)).flatten } := by
  induction l with
  | nil => intro s; simp
  | cons a t ih =>
    intro s
    rw [List.foldl_cons, ih (mergeStats s a)]
    simp [mergeStats, add_assoc, List.append_assoc]

/-- main's merge of the arrived Stats, field by field: counters and byte
totals are the exact sums of the per-worker values, and the combined latency
slice is the concatenation of the per-worker slices. -/
lemma aggregate_fields (l : List Stats) :
    aggregate l =
      { SuccessfulGET := (l.map (fun w => w.SuccessfulGET)).sum,
        SuccessfulPOST := (l.map (fun w => w.SuccessfulPOST)).sum,
        TotalBytesSent := (l.map (fun w => w.TotalBytesSent)).sum,
        TotalBytesRecv := (l.map (fun w => w.TotalBytesRecv)).sum,
        Errors := (l.map (fun w => w.Errors)).sum,
        Latencies := (l.map (fun w => w.Latencies)).flatten } := by
  unfold aggregate
  rw [foldl_mergeStats]
  simp [emptyStats]

/-- Each iteration of the worker loop adds exactly one to the combined count
of successes and errors. -/
lemma foldl_runIteration_counts (its : List Iteration) :
    ∀ s : Stats,
      (List.foldl runIteration s its).SuccessfulGET +
        (List.foldl runIteration s its).SuccessfulPOST +
        (List.foldl runIteration s its).Errors =
      s.SuccessfulGET + s.SuccessfulPOST + s.Errors + its.length := by
  induction its with
  | nil => intro s; simp
  | cons a t ih =>
    intro s
    rw [List.foldl_cons, ih (runIteration s a)]
    have h1 : (runIteration s a).SuccessfulGET + (runIteration s a).SuccessfulPOST +
        (runIteration s a).Errors = s.SuccessfulGET + s.SuccessfulPOST + s.Errors + 1 := by
      unfold runIteration
      cases he : (iterationOutcome a).error with
      | some e => simp; ring
      | none => cases hg : a.isGet <;> simp <;> ring
    simp only [List.length_cons]
    push_cast
    omega

/-- A worker's successes plus errors equal the number of iterations it
ran. -/
lemma makeRequests_counts (its : List Iteration) :
    (makeRequests its).SuccessfulGET + (makeRequests its).SuccessfulPOST +
      (makeRequests its).Errors = (its.length : Int) := by
  unfold makeRequests
  rw [foldl_runIteration_counts]
  simp [emptyStats]

/-- Summing a function that is constant on a list multiplies the constant by
the length. -/
lemma sum_map_const_int {α : Type} (l : List α) (f : α → Int) (c : Int)
    (h : ∀ x ∈ l, f x = c) : (l.map f).sum = l.length * c := by
  induction l with
  | nil => simp
  | cons a t ih =>
    rw [List.map_cons, List.sum_cons, h a (List.mem_cons_self a t),
      ih (fun x hx => h x (List.mem_cons_of_mem a hx))]
    simp [List.length_cons]
    ring

/-- Adding three mapped sums pointwise. -/
lemma sum_map_add3 {α : Type} (l : List α) (f g h : α → Int) :
    (l.map f).sum + (l.map g).sum + (l.map h).sum =
      (l.map (fun x => f x + g x + h x)).sum := by
  induction l with
  | nil => simp
  | cons a t ih =>
    simp only [List.map_cons, List.sum_cons]
    rw [← ih]
    ring

set_option maxRecDepth 4000 in
/-- C3 counterexample: with 100 configured requests, a run with 37 workers
performs only 37 * (100 / 37) = 74 iterations, so its total of successes
plus errors is 74, while a single-worker run totals 100; against the claim,
the totals are not identical across worker counts. -/
theorem claim3_counterexample :
    (aggregate (List.replicate 37
        (makeRequests (List.replicate (perWorkerIterations 100 37) okIt)))).SuccessfulGET +
      (aggregate (List.replicate 37
        (makeRequests (List.replicate (perWorkerIterations 100 37) okIt)))).SuccessfulPOST +
      (aggregate (List.replicate 37
        (makeRequests (List.replicate (perWorkerIterations 100 37) okIt)))).Errors = 74 ∧
    (aggregate (List.replicate 1
        (makeRequests (List.replicate (perWorkerIterations 100 1) okIt)))).SuccessfulGET +
      (aggregate (List.replicate 1
        (makeRequests (List.replicate (perWorkerIterations 100 1) okIt)))).SuccessfulPOST +
      (aggregate (List.replicate 1
        (makeRequests (List.replicate (perWorkerIterations 100 1) okIt)))).Errors = 100 ∧
    (74 : Int) ≠ 100 := by
  refine ⟨by decide, by decide, by decide⟩

/-- C3 amended: the merged Stats counters equal the exact sum of the
per-worker counters and the merged latency slice is the concatenation of the
per-worker slices; the merged total of successes plus errors equals the
number of iterations actually performed, threads * (numRequests / threads)
— which coincides with the configured total only when the worker count
divides it, not across arbitrary worker counts. -/
theorem claim3_merge_sums (numRequests threads : Nat) (runs : List (List Iteration))
    (hcount : runs.length = threads)
    (hlen : ∀ r ∈ runs, r.length = perWorkerIterations numRequests threads) :
    (aggregate (runs.map makeRequests)).SuccessfulGET =
      ((runs.map makeRequests).map (fun w => w.SuccessfulGET)).sum ∧
    (aggregate (runs.map makeRequests)).SuccessfulPOST =
      ((runs.map makeRequests).map (fun w => w.SuccessfulPOST)).sum ∧
    (aggregate (runs.map makeRequests)).TotalBytesSent =
      ((runs.map makeRequests).map (fun w => w.TotalBytesSent)).sum ∧
    (aggregate (runs.map makeRequests)).TotalBytesRecv =
      ((runs.map makeRequests).map (fun w => w.TotalBytesRecv)).sum ∧
    (aggregate (runs.map makeRequests)).Errors =
      ((runs.map makeRequests).map (fun w => w.Errors)).sum ∧
    (aggregate (runs.map makeRequests)).Latencies =
      ((runs.map makeRequests).map (fun w => w.Latencies)).flatten ∧
    (aggregate (runs.map makeRequests)).SuccessfulGET +
      (aggregate (runs.map makeRequests)).SuccessfulPOST +
      (aggregate (runs.map makeRequests)).Errors =
      (totalIterations numRequests threads : Int) := by
  have hf := aggregate_fields (runs.map makeRequests)
  refine ⟨by rw [hf], by rw [hf], by rw [hf], by rw [hf], by rw [hf], by rw [hf], ?_⟩
  rw [hf]
  show ((runs.map makeRequests).map (fun w => w.SuccessfulGET)).sum +
      ((runs.map makeRequests).map (fun w => w.SuccessfulPOST)).sum +
      ((runs.map makeRequests).map (fun w => w.Errors)).sum =
      (totalIterations numRequests threads : Int)
  rw [sum_map_add3]
  rw [List.map_map]
  have hconst : ∀ r ∈ runs,
      ((fun w => w.SuccessfulGET + w.SuccessfulPOST + w.Errors) ∘ makeRequests) r =
        (perWorkerIterations numRequests threads : Int) := by
    intro r hr
    show (makeRequests r).SuccessfulGET + (makeRequests r).SuccessfulPOST +
        (makeRequests r).Errors = (perWorkerIterations numRequests threads : Int)
    rw [makeRequests_counts, hlen r hr]
  rw [sum_map_const_int runs _ _ hconst, hcount]
  unfold totalIterations
  push_cast
  ring

/-- Witness for the amended C3: two workers of one iteration each, for two
configured requests on two threads. -/
theorem claim3_merge_sums_witness :
    (aggregate ([[okIt], [failIt]].map makeRequests)).SuccessfulGET +
      (aggregate ([[okIt], [failIt]].map makeRequests)).SuccessfulPOST +
      (aggregate ([[okIt], [failIt]].map makeRequests)).Errors =
      (totalIterations 2 2 : Int) := by
  have h := claim3_merge_sums 2 2 [[okIt], [failIt]] (by decide) (by decide)
  exact h.2.2.2.2.2.2

/-- C9: the driver spawns threads workers, each told to perform exactly
numRequests / threads iterations; the total number of iterations actually
performed is threads * (numRequests / threads), strictly less than the
configured total whenever threads does not divide numRequests; and requests
per second is computed from the configured numRequests, so it differs from
the value the performed count would give. -/
theorem claim9_iteration_shortfall (numRequests threads : Nat) (e : ℚ)
    (hndvd : ¬ threads ∣ numRequests) (he : 0 < e) :
    (spawnCounts numRequests threads).length = threads ∧
    (∀ c ∈ spawnCounts numRequests threads, c = numRequests / threads) ∧
    (spawnCounts numRequests threads).sum = totalIterations numRequests threads ∧
    totalIterations numRequests threads < numRequests ∧
    requestsPerSecond numRequests e ≠
      requestsPerSecond (totalIterations numRequests threads) e := by
  have hlt : totalIterations numRequests threads < numRequests := by
    have hle : threads * (numRequests / threads) ≤ numRequests := by
      rw [Nat.mul_comm]
      exact Nat.div_mul_le_self _ _
    refine lt_of_le_of_ne hle (fun heq => hndvd ⟨numRequests / threads, heq.symm⟩)
  refine ⟨by simp [spawnCounts], ?_, ?_, hlt, ?_⟩
  · intro c hc
    exact List.eq_of_mem_replicate hc
  · simp [spawnCounts, totalIterations, List.sum_replicate, smul_eq_mul]
  · intro heq
    unfold requestsPerSecond at heq
    have hcast : (numRequests : ℚ) = (totalIterations numRequests threads : ℚ) := by
      have h1 := congrArg (fun x => x * e) heq
      simpa [div_mul_cancel₀ _ (ne_of_gt he)] using h1
    have : numRequests = totalIterations numRequests threads := Nat.cast_inj.mp hcast
    omega

/-- Witness for C9 at 100 requests, 37 threads and one elapsed second. -/
theorem claim9_witness :
    (spawnCounts 100 37).length = 37 ∧
    (∀ c ∈ spawnCounts 100 37, c = 100 / 37) ∧
    (spawnCounts 100 37).sum = totalIterations 100 37 ∧
    totalIterations 100 37 < 100 ∧
    requestsPerSecond 100 1 ≠ requestsPerSecond (totalIterations 100 37) 1 :=
  claim9_iteration_shortfall 100 37 1 (by decide) (by norm_num)

/-- The latency sequence of the claim's literal example: 10, 20, 30, 40 and
50 milliseconds, in nanoseconds. -/
def sampleLats : List Nat := [10000000, 20000000, 30000000, 40000000, 50000000]

/-- C5: for a non-empty combined latency sequence and a target percentile
p < 100, the sorted slice is an ascending permutation of the input, the
index (n * p) / 100 is in range, and the reported percentile is the element
at that zero-based index of the sequence sorted ascending. -/
theorem claim5_percentile_nearest_rank (lats : List Nat) (p : Nat)
    (hn : 0 < lats.length) (hp : p < 100) :
    List.Sorted (fun a b => a ≤ b) (sortDurationSlice lats) ∧
    (sortDurationSlice lats).Perm lats ∧
    ∃ h : lats.length * p / 100 < (sortDurationSlice lats).length,
      percentileLatency lats p =
        some ((sortDurationSlice lats).get ⟨lats.length * p / 100, h⟩) := by
  have hperm : (sortDurationSlice lats).Perm lats := List.perm_insertionSort _ lats
  have hlen : (sortDurationSlice lats).length = lats.length := hperm.length_eq
  have hidx : lats.length * p / 100 < lats.length := by
    rw [Nat.div_lt_iff_lt_mul (by norm_num : 0 < 100)]
    exact (mul_lt_mul_left hn).mpr hp
  have hidx' : lats.length * p / 100 < (sortDurationSlice lats).length := by
    rw [hlen]; exact hidx
  refine ⟨List.sorted_insertionSort _ lats, hperm, hidx', ?_⟩
  have hq : (sortDurationSlice lats).get? ((sortDurationSlice lats).length * p / 100) =
      (sortDurationSlice lats).get? (lats.length * p / 100) := by
    rw [hlen]
  unfold percentileLatency
  rw [hq]
  exact List.get?_eq_get hidx'

/-- Witness for C5 on the literal sequence 10,20,30,40,50 ms: p=50 selects
index 2, 30 ms, and p=90 selects index 4, 50 ms. -/
theorem claim5_witness :
    (List.Sorted (fun a b => a ≤ b) (sortDurationSlice sampleLats) ∧
      (sortDurationSlice sampleLats).Perm sampleLats ∧
      ∃ h : sampleLats.length * 50 / 100 < (sortDurationSlice sampleLats).length,
        percentileLatency sampleLats 50 =
          some ((sortDurationSlice sampleLats).get ⟨sampleLats.length * 50 / 100, h⟩)) ∧
    percentileLatency sampleLats 50 = some 30000000 ∧
    percentileLatency sampleLats 90 = some 50000000 :=
  ⟨claim5_percentile_nearest_rank sampleLats 50 (by decide) (by decide),
   by decide, by decide⟩

/-- C1: contrary to the claim, a run with zero successful requests produces
no summary: the worker Stats carry an empty latency slice, the percentile
lookup on the empty combined slice is out of range (the Go code panics on
latenciesSorted[idx] with idx = 0), and the aggregation phase of main yields
no RunSummary at all. -/
theorem claim1_empty_run_no_summary :
    makeRequests (List.replicate 3 failIt) =
      { SuccessfulGET := 0, SuccessfulPOST := 0, TotalBytesSent := 0,
        TotalBytesRecv := 0, Errors := 3, Latencies := [] } ∧
    percentileLatency [] 50 = none ∧
    computePercentileTable [] = none ∧
    runMain [makeRequests (List.replicate 3 failIt)] 3 1 = none := by
  refine ⟨by decide, by decide, by decide, by decide⟩

/-- A permutation of a list of lists flattens to a permutation. -/
lemma perm_flatten {α : Type} :
    ∀ {l1 l2 : List (List α)}, l1.Perm l2 → l1.flatten.Perm l2.flatten := by
  intro l1 l2 h
  induction h with
  | nil => simp
  | cons a _ ih => simpa using ih.append_left a
  | swap a b l =>
    simp only [List.flatten_cons]
    rw [← List.append_assoc, ← List.append_assoc]
    exact (List.perm_append_comm).append_right _
  | trans _ _ ih1 ih2 => exact ih1.trans ih2

/-- Sorting the latency slice is invariant under permutation of the
input. -/
lemma sortDurationSlice_perm_eq {l1 l2 : List Nat} (h : l1.Perm l2) :
    sortDurationSlice l1 = sortDurationSlice l2 :=
  List.eq_of_perm_of_sorted
    ((List.perm_insertionSort _ l1).trans (h.trans (List.perm_insertionSort _ l2).symm))
    (List.sorted_insertionSort _ l1) (List.sorted_insertionSort _ l2)

/-- C8: aggregation is order-insensitive: merging the per-worker Stats in
any arrival order yields the same counter sums and byte totals, latency
multisets that are permutations of one another, the same sorted latency
slice, and therefore identical percentile results. -/
theorem claim8_order_insensitive (l1 l2 : List Stats) (hp : l1.Perm l2) :
    (aggregate l1).SuccessfulGET = (aggregate l2).SuccessfulGET ∧
    (aggregate l1).SuccessfulPOST = (aggregate l2).SuccessfulPOST ∧
    (aggregate l1).TotalBytesSent = (aggregate l2).TotalBytesSent ∧
    (aggregate l1).TotalBytesRecv = (aggregate l2).TotalBytesRecv ∧
    (aggregate l1).Errors = (aggregate l2).Errors ∧
    (aggregate l1).Latencies.Perm (aggregate l2).Latencies ∧
    sortDurationSlice (aggregate l1).Latencies =
      sortDurationSlice (aggregate l2).Latencies ∧
    ∀ p, percentileLatency (aggregate l1).Latencies p =
      percentileLatency (aggregate l2).Latencies p := by
  have h1 := aggregate_fields l1
  have h2 := aggregate_fields l2
  have hlat : (aggregate l1).Latencies.Perm (aggregate l2).Latencies := by
    rw [h1, h2]
    exact perm_flatten (hp.map _)
  have hsort : sortDurationSlice (aggregate l1).Latencies =
      sortDurationSlice (aggregate l2).Latencies := sortDurationSlice_perm_eq hlat
  refine ⟨?_, ?_, ?_, ?_, ?_, hlat, hsort, ?_⟩
  · rw [h1, h2]; exact (hp.map _).sum_eq
  · rw [h1, h2]; exact (hp.map _).sum_eq
  · rw [h1, h2]; exact (hp.map _).sum_eq
  · rw [h1, h2]; exact (hp.map _).sum_eq
  · rw [h1, h2]; exact (hp.map _).sum_eq
  · intro p
    unfold percentileLatency
    rw [hsort]

/-- A first concrete per-worker Stats record. -/
def statA : Stats :=
  { SuccessfulGET := 1, SuccessfulPOST := 0, TotalBytesSent := 2,
    TotalBytesRecv := 3, Errors := 0, Latencies := [5] }

/-- A second concrete per-worker Stats record. -/
def statB : Stats :=
  { SuccessfulGET := 0, SuccessfulPOST := 1, TotalBytesSent := 4,
    TotalBytesRecv := 6, Errors := 1, Latencies := [9, 2] }

/-- Witness for C8 on two concrete workers received in either order. -/
theorem claim8_witness :
    (aggregate [statA, statB]).Latencies.Perm (aggregate [statB, statA]).Latencies ∧
    (aggregate [statA, statB]).SuccessfulGET = (aggregate [statB, statA]).SuccessfulGET ∧
    percentileLatency (aggregate [statA, statB]).Latencies 50 =
      percentileLatency (aggregate [statB, statA]).Latencies 50 := by
  have h := claim8_order_insensitive [statA, statB] [statB, statA]
    (List.Perm.swap statB statA [])
  exact ⟨h.2.2.2.2.2.1, h.1, h.2.2.2.2.2.2.2 50⟩

/-- The per-worker invariant is preserved by each worker iteration. -/
lemma statsInv_runIteration (s : Stats) (it : Iteration) (h : statsInv s) :
    statsInv (runIteration s it) := by
  obtain ⟨hlen, h1, h2, h3, h4, h5⟩ := h
  cases he : (iterationOutcome it).error with
  | some e =>
    have hr : runIteration s it = { s with Errors := s.Errors + 1 } := by
      simp [runIteration, he]
    rw [hr]
    exact ⟨hlen, h1, h2, h3, h4, by show (0 : Int) ≤ s.Errors + 1; omega⟩
  | none =>
    cases hg : it.isGet with
    | true =>
      have hr : runIteration s it =
          { s with
            TotalBytesSent := s.TotalBytesSent + ((iterationOutcome it).bytesSent : Int),
            TotalBytesRecv := s.TotalBytesRecv + ((iterationOutcome it).bytesRecv : Int),
            Latencies := s.Latencies ++ [(iterationOutcome it).latency],
            SuccessfulGET := s.SuccessfulGET + 1 } := by
        simp [runIteration, he, hg]
      rw [hr]
      unfold statsInv
      refine ⟨?_, ?_, ?_, ?_, ?_, ?_⟩ <;> simp [List.length_append] <;> omega
    | false =>
      have hr : runIteration s it =
          { s with
            TotalBytesSent := s.TotalBytesSent + ((iterationOutcome it).bytesSent : Int),
            TotalBytesRecv := s.TotalBytesRecv + ((iterationOutcome it).bytesRecv : Int),
            Latencies := s.Latencies ++ [(iterationOutcome it).latency],
            SuccessfulPOST := s.SuccessfulPOST + 1 } := by
        simp [runIteration, he, hg]
      rw [hr]
      unfold statsInv
      refine ⟨?_, ?_, ?_, ?_, ?_, ?_⟩ <;> simp [List.length_append] <;> omega

/-- The per-worker invariant is preserved by the aggregator's merge. -/
lemma statsInv_mergeStats {a b : Stats} (ha : statsInv a) (hb : statsInv b) :
    statsInv (mergeStats a b) := by
  obtain ⟨la, a1, a2, a3, a4, a5⟩ := ha
  obtain ⟨lb, b1, b2, b3, b4, b5⟩ := hb
  unfold statsInv mergeStats
  refine ⟨?_, ?_, ?_, ?_, ?_, ?_⟩ <;> simp [List.length_append] <;> omega

/-- The zero Stats record satisfies the invariant. -/
lemma statsInv_empty : statsInv emptyStats := by
  unfold statsInv emptyStats
  norm_num

/-- The invariant is preserved along the whole worker loop. -/
lemma statsInv_foldl_runIteration (its : List Iteration) :
    ∀ s, statsInv s → statsInv (List.foldl runIteration s its) := by
  induction its with
  | nil => intro s hs; simpa using hs
  | cons a t ih =>
    intro s hs
    rw [List.foldl_cons]
    exact ih _ (statsInv_runIteration s a hs)

/-- Every Stats record a worker publishes satisfies the invariant. -/
lemma statsInv_makeRequests (its : List Iteration) : statsInv (makeRequests its) :=
  statsInv_foldl_runIteration its emptyStats statsInv_empty

/-- The invariant is preserved along the whole aggregation loop. -/
lemma statsInv_foldl_merge (ws : List Stats) :
    ∀ s, statsInv s → (∀ w ∈ ws, statsInv w) →
      statsInv (List.foldl mergeStats s ws) := by
  induction ws with
  | nil => intro s hs _; simpa using hs
  | cons a t ih =>
    intro s hs hws
    rw [List.foldl_cons]
    exact ih _ (statsInv_mergeStats hs (hws a (List.mem_cons_self a t)))
      (fun w hw => hws w (List.mem_cons_of_mem a hw))

/-- C10: every Stats record a worker publishes has exactly one latency entry
per successful request and non-negative counters and byte totals; the
aggregator's merge preserves this invariant, so the merged Stats satisfies
it as well. -/
theorem claim10_stats_invariant (runs : List (List Iteration)) :
    (∀ its ∈ runs, statsInv (makeRequests its)) ∧
    statsInv (aggregate (runs.map makeRequests)) ∧
    (∀ a b : Stats, statsInv a → statsInv b → statsInv (mergeStats a b)) := by
  refine ⟨fun its _ => statsInv_makeRequests its, ?_,
    fun a b ha hb => statsInv_mergeStats ha hb⟩
  unfold aggregate
  refine statsInv_foldl_merge (runs.map makeRequests) emptyStats statsInv_empty ?_
  intro w hw
  rcases List.mem_map.mp hw with ⟨its, _, rfl⟩
  exact statsInv_makeRequests its

/-- Witness for C10: the invariant holds for the merge of two concrete
published worker records. -/
theorem claim10_witness :
    statsInv (mergeStats (makeRequests [okIt]) (makeRequests [failIt])) := by
  have h := claim10_stats_invariant [[okIt], [failIt]]
  exact h.2.2 _ _ (h.1 [okIt] (by simp)) (h.1 [failIt] (by simp))

end Loadtest
